import Mathlib

/-!
Verification of the transaction import & reconciliation pipeline of the
`budget` application (backend routes `import.ts`, `expenses.ts`, and the
dashboard summary aggregation), shallowly embedded in Lean.

Modelling conventions:
* Database tables are Lean lists in insertion order; an SQL `INSERT`
  appends at the end, `DELETE ... WHERE p` is `List.filter (fun r => !p r)`,
  `UPDATE ... SET ... WHERE p` is `List.map` guarded by `p`.
* Row ids (uuids in the source) are modelled by a global fresh-id counter
  `nextId` on the database state; all that matters is that fresh ids are
  distinct from existing ones.
* JavaScript `Date` values are modelled structurally as year/month/day;
  `dateToYearMonth` (import.ts line 14) becomes `year * 100 + month`.
* JavaScript string `trim` is modelled by `jsTrim`, which strips
  whitespace from both ends.
* The JavaScript idiom `x || null` on an optional string (which maps both
  `null`/`undefined` and the empty string to `null`) is `jsOrNull`.
* Monetary amounts are `Int` (minor units), matching the bigint
  `mode: "number"` columns of the schema.
-/

namespace Budget

/-- Calendar date (models the JS `Date` carried in the `date` column). -/
structure CalDate where
  year : Nat
  month : Nat
  day : Nat
deriving DecidableEq, Repr

/-- import.ts line 14: `dateToYearMonth` — `getFullYear() * 100 + (getMonth() + 1)`. -/
def dateToYearMonth (d : CalDate) : Int :=
  (d.year : Int) * 100 + (d.month : Int)

/-- Model of JS `String.prototype.trim`: strip whitespace from both ends. -/
def jsTrim (s : String) : String :=
  ⟨((s.data.dropWhile Char.isWhitespace).reverse.dropWhile Char.isWhitespace).reverse⟩

/-- Model of the JS idiom `s || null` on a nullable string: the empty
string is falsy and collapses to `null`. -/
def jsOrNull : Option String → Option String
  | some "" => none
  | s => s

/-- A raw transaction as returned by the Python extraction service
(import.ts lines 99–128: fields `date`, `amount`, `title`, `source`,
`raw_data`, `isShared` are read off each `tx`). -/
structure RawTx where
  date : CalDate
  amount : Int
  title : String
  source : Option String
  rawData : Option String
  isShared : Option Bool
deriving DecidableEq, Repr

/-- A row of the `expenses` table (schema.ts `expenses` pgTable). -/
structure LedgerEntry where
  id : Nat
  userId : Nat
  categoryId : Option Nat
  date : CalDate
  amount : Int
  title : String
  description : Option String
  notes : Option String
  source : Option String
  sourceFile : Option String
  isShared : Bool
  collectToMe : Int
  collectFromMe : Int
  settled : Bool
  yearMonth : Int
deriving DecidableEq, Repr

/-- A row of the `staged_expenses` table (schema.ts `stagedExpenses`
pgTable).  `sortIndex` has column default `0`. -/
structure StagedTx where
  id : Nat
  userId : Nat
  categoryId : Option Nat
  date : CalDate
  amount : Int
  title : String
  source : Option String
  rawData : Option String
  isDuplicate : Bool
  duplicateOf : Option Nat
  isShared : Bool
  collectToMe : Int
  collectFromMe : Int
  yearMonth : Int
  notes : Option String
  sortIndex : Int
deriving DecidableEq, Repr

/-- Database state: the two tables the import pipeline touches, plus a
fresh-id counter standing in for uuid generation. -/
structure DB where
  expenses : List LedgerEntry
  staged : List StagedTx
  nextId : Nat
deriving DecidableEq, Repr

/-- import.ts lines 109–115: the duplicate predicate evaluated against an
existing ledger entry `e` — same month, exact amount, trimmed titles
equal, and `(e.source || null) === source`.  `yearMonth`, `amount`,
`title`, `source` are the candidate transaction's fields (`source`
already normalised by `|| null`). -/
def dupPred (yearMonth : Int) (amount : Int) (title : String)
    (source : Option String) (e : LedgerEntry) : Bool :=
  e.yearMonth == yearMonth && e.amount == amount &&
    jsTrim e.title == title && jsOrNull e.source == source

/-- import.ts lines 99–137: build the staged row inserted for one raw
transaction `tx`.  `existing` is the ledger slice fetched at lines 88–93,
`target` the (truthy) target month if supplied.  Note that the insert at
lines 120–136 supplies no `sortIndex`, so the column default `0`
applies. -/
def stageRow (existing : List LedgerEntry) (userId : Nat)
    (target : Option Int) (id : Nat) (tx : RawTx) : StagedTx :=
  let yearMonth := target.getD (dateToYearMonth tx.date)
  let amount := tx.amount
  let title := jsTrim tx.title
  let source := jsOrNull tx.source
  let duplicate := existing.find? (dupPred yearMonth amount title source)
  { id := id
    userId := userId
    categoryId := none
    date := tx.date
    amount := amount
    title := tx.title
    source := source
    rawData := tx.rawData
    isDuplicate := duplicate.isSome
    duplicateOf := duplicate.map (fun e => e.id)
    isShared := tx.isShared.getD false
    collectToMe := 0
    collectFromMe := 0
    yearMonth := yearMonth
    notes := none
    sortIndex := 0 }

/-- The staging loop of import.ts lines 99–140: one insert per surviving
transaction, ids taken in sequence. -/
def stageRows (existing : List LedgerEntry) (userId : Nat)
    (target : Option Int) : Nat → List RawTx → List StagedTx
  | _, [] => []
  | id, tx :: rest =>
    stageRow existing userId target id tx ::
      stageRows existing userId target (id + 1) rest

/-- Outcome of the upload route: the updated database, the list of rows
inserted into staging (the route's `staged` array), and the response
counts. -/
structure StageResult where
  db : DB
  rows : List StagedTx
  staged : Nat
  duplicates : Nat
  filteredByMonth : Nat
deriving Repr

/-- import.ts lines 34–153 (`POST /upload`, after a successful extraction
returning `txs`): filter by target month, purge staging for that month,
fetch the ledger slice used for duplicate detection, then stage each
surviving transaction.  `targetYearMonth` models the parsed form value;
`some 0` is falsy in JS and is normalised to `none` up front, matching
every `if (targetYearMonth)` test in the route.  `now` models
`new Date()` at line 87. -/
def stageImport (db : DB) (userId : Nat) (txs : List RawTx)
    (targetYearMonth : Option Int) (now : CalDate) : StageResult :=
  let target : Option Int :=
    match targetYearMonth with
    | some t => if t == 0 then none else some t
    | none => none
  -- lines 69–74: month filter
  let transactions :=
    match target with
    | some t => txs.filter (fun tx => dateToYearMonth tx.date == t)
    | none => txs
  -- lines 77–84: purge staged rows for (user, targetYearMonth)
  let staged1 :=
    match target with
    | some t =>
      db.staged.filter (fun s => !(s.userId == userId && s.yearMonth == t))
    | none => db.staged
  -- line 87: yearMonthToCheck
  let yearMonthToCheck :=
    match target with
    | some t => t
    | none =>
      match transactions.head? with
      | some tx => dateToYearMonth tx.date
      | none => dateToYearMonth now
  -- lines 88–93: ledger slice for duplicate detection
  let existing := db.expenses.filter
    (fun e => e.userId == userId && e.yearMonth == yearMonthToCheck)
  -- lines 99–140: stage each surviving transaction
  let rows := stageRows existing userId target db.nextId transactions
  { db := { db with
      staged := staged1 ++ rows
      nextId := db.nextId + transactions.length }
    rows := rows
    staged := rows.length
    duplicates := (rows.filter (fun r => r.isDuplicate)).length
    filteredByMonth := txs.length - transactions.length }

/-- import.ts lines 156–177 (`GET /staged`): list staged rows, filtered
by month when the (truthy) `yearMonth` query is present.  The route also
sorts by date descending, which does not affect membership and is not
modelled. -/
def listStaged (db : DB) (userId : Nat) (yearMonth : Int) : List StagedTx :=
  if yearMonth == 0 then
    db.staged.filter (fun s => s.userId == userId)
  else
    db.staged.filter (fun s => s.userId == userId && s.yearMonth == yearMonth)

/-- The request body of `PUT /staged/:id` after the zod parse at
import.ts lines 186–195.  `none` on an outer `Option` means the field was
absent from the body (and is then skipped by the drizzle `set`); the
inner `Option` of `categoryId`/`notes` is an explicit `null`.  The zod
schema checks only types (uuid shape, integrality, booleans); that is
exactly what this typed structure enforces — it imposes no relation
between the settlement fields and `amount`. -/
structure StagedUpdate where
  categoryId : Option (Option Nat)
  title : Option String
  amount : Option Int
  date : Option CalDate
  notes : Option (Option String)
  isShared : Option Bool
  collectToMe : Option Int
  collectFromMe : Option Int
deriving DecidableEq, Repr

/-- import.ts lines 197–210: the drizzle `set` applied to one staged row;
absent fields leave the column unchanged.  (`data.categoryId || null`
only renormalises an explicit `null`; the uuid check rules out the empty
string, so it is the inner `Option` unchanged.) -/
def applyStagedUpdate (u : StagedUpdate) (s : StagedTx) : StagedTx :=
  { s with
    categoryId := u.categoryId.getD s.categoryId
    title := u.title.getD s.title
    amount := u.amount.getD s.amount
    date := u.date.getD s.date
    notes := u.notes.getD s.notes
    isShared := u.isShared.getD s.isShared
    collectToMe := u.collectToMe.getD s.collectToMe
    collectFromMe := u.collectFromMe.getD s.collectFromMe }

/-- The staging table after the drizzle `UPDATE ... WHERE id = ? AND
user_id = ?` of import.ts lines 197–217: rows matching both keys have
the `set` applied, every other row is untouched. -/
def stagedAfterUpdate (db : DB) (userId : Nat) (id : Nat) (u : StagedUpdate) :
    List StagedTx :=
  db.staged.map
    (fun r => if r.id == id && r.userId == userId then applyStagedUpdate u r else r)

/-- import.ts lines 180–236 (`PUT /staged/:id`): update the row matching
`(id, userId)`, return 404 (`none`) when no row matched, otherwise
re-fetch the updated row by id (lines 223–226). -/
def updateStaged (db : DB) (userId : Nat) (id : Nat) (u : StagedUpdate) :
    DB × Option StagedTx :=
  let staged1 := stagedAfterUpdate db userId id u
  match staged1.find? (fun r => r.id == id && r.userId == userId) with
  | none => ({ db with staged := staged1 }, none)
  | some upd =>
    ({ db with staged := staged1 }, staged1.find? (fun r => r.id == upd.id))

/-- import.ts lines 280–294: the ledger entry inserted when committing
one staged row — copies date, amount, title, category, notes, source,
settlement fields, shared flag and the target month, with
`sourceFile: "import"` as provenance; `description` and `settled` take
their column defaults. -/
def entryOfStaged (id : Nat) (userId : Nat) (s : StagedTx) : LedgerEntry :=
  { id := id
    userId := userId
    categoryId := s.categoryId
    date := s.date
    amount := s.amount
    title := s.title
    description := none
    notes := s.notes
    source := s.source
    sourceFile := some "import"
    isShared := s.isShared
    collectToMe := s.collectToMe
    collectFromMe := s.collectFromMe
    settled := false
    yearMonth := s.yearMonth }

/-- The insert loop of import.ts lines 280–295, ids taken in sequence. -/
def insertEntries (userId : Nat) : Nat → List StagedTx → List LedgerEntry
  | _, [] => []
  | id, s :: rest => entryOfStaged id userId s :: insertEntries userId (id + 1) rest

/-- import.ts lines 258–313 (`POST /commit`): read the non-duplicate
staged rows for (user, month); if none, answer `{committed: 0}` without
touching anything; otherwise insert one ledger entry per row, delete all
staged rows for (user, month), and answer the committed count. -/
def commit (db : DB) (userId : Nat) (yearMonth : Int) : DB × Nat :=
  let toCommit := db.staged.filter
    (fun s => s.userId == userId && s.yearMonth == yearMonth && s.isDuplicate == false)
  if toCommit.isEmpty then
    (db, 0)
  else
    let db1 := { db with
      expenses := db.expenses ++ insertEntries userId db.nextId toCommit
      nextId := db.nextId + toCommit.length }
    let db2 := { db1 with
      staged := db1.staged.filter
        (fun s => !(s.userId == userId && s.yearMonth == yearMonth)) }
    (db2, toCommit.length)

/-- The request body of `PUT /:id` on expenses after the partial zod
parse at expenses.ts line 223; absent fields are skipped by the drizzle
`set` at lines 225–241. -/
structure ExpenseUpdate where
  categoryId : Option (Option Nat)
  date : Option CalDate
  amount : Option Int
  title : Option String
  description : Option (Option String)
  notes : Option (Option String)
  isShared : Option Bool
  collectToMe : Option Int
  collectFromMe : Option Int
  settled : Option Bool
  yearMonth : Option Int
deriving DecidableEq, Repr

/-- expenses.ts lines 225–241: the drizzle `set` applied to one ledger
row. -/
def applyExpenseUpdate (u : ExpenseUpdate) (e : LedgerEntry) : LedgerEntry :=
  { e with
    categoryId := u.categoryId.getD e.categoryId
    date := u.date.getD e.date
    amount := u.amount.getD e.amount
    title := u.title.getD e.title
    description := u.description.getD e.description
    notes := u.notes.getD e.notes
    isShared := u.isShared.getD e.isShared
    collectToMe := u.collectToMe.getD e.collectToMe
    collectFromMe := u.collectFromMe.getD e.collectFromMe
    settled := u.settled.getD e.settled
    yearMonth := u.yearMonth.getD e.yearMonth }

/-- expenses.ts lines 64–67 (`GET /stats`): month total where a shared
row contributes `Math.floor(amount / 2)` — floor division on an integer,
i.e. `Int.fdiv` — and a non-shared row its full amount. -/
def statsTotal (es : List LedgerEntry) : Int :=
  es.foldl (fun sum e => sum + (if e.isShared then Int.fdiv e.amount 2 else e.amount)) 0

/-- Dashboard summary, monthly-expenses total (the `expensesTotal`
reduce): positive amounts only, shared rows contributing
`Math.floor(amount / 2)`. -/
def dashboardExpensesTotal (es : List LedgerEntry) : Int :=
  (es.filter (fun e => 0 < e.amount)).foldl
    (fun sum e => sum + (if e.isShared then Int.fdiv e.amount 2 else e.amount)) 0

/-- Dashboard summary, `sharedExpensesTotal`: the full amount of every
positive shared row (the "shared total" reporting figure). -/
def dashboardSharedTotal (es : List LedgerEntry) : Int :=
  (es.filter (fun e => 0 < e.amount)).foldl
    (fun sum e => sum + (if e.isShared then e.amount else 0)) 0

/-! ### Concrete fixtures (the spec's own test scenarios, §8) -/

/-- Raw "Coffee" transaction of the spec scenario. -/
def txCoffee : RawTx :=
  { date := ⟨2026, 3, 5⟩, amount := -4500, title := "Coffee"
    source := none, rawData := none, isShared := none }

/-- Raw "Rent" transaction of the spec scenario. -/
def txRent : RawTx :=
  { date := ⟨2026, 3, 6⟩, amount := -1200000, title := "Rent"
    source := none, rawData := none, isShared := none }

/-- A fixed "now" for the upload route's `new Date()` fallback. -/
def dNow : CalDate := ⟨2026, 3, 7⟩

/-- A committed March-2026 ledger entry identical to `txCoffee`. -/
def ledCoffee : LedgerEntry :=
  { id := 1, userId := 0, categoryId := none, date := ⟨2026, 3, 5⟩
    amount := -4500, title := "Coffee", description := none, notes := none
    source := none, sourceFile := none, isShared := false
    collectToMe := 0, collectFromMe := 0, settled := false, yearMonth := 202603 }

/-- Empty database. -/
def dbEmpty : DB := { expenses := [], staged := [], nextId := 10 }

/-- Database whose ledger already contains the Coffee entry. -/
def dbWithCoffee : DB := { expenses := [ledCoffee], staged := [], nextId := 10 }

/-- The staged row produced for `txCoffee` against `dbWithCoffee`
(duplicate of ledger entry 1). -/
def rowCoffeeStaged : StagedTx :=
  { id := 10, userId := 0, categoryId := none, date := ⟨2026, 3, 5⟩
    amount := -4500, title := "Coffee", source := none, rawData := none
    isDuplicate := true, duplicateOf := some 1, isShared := false
    collectToMe := 0, collectFromMe := 0, yearMonth := 202603
    notes := none, sortIndex := 0 }

/-- The staged row produced for `txRent` (second position) against the
empty ledger. -/
def rowRentStaged : StagedTx :=
  { id := 11, userId := 0, categoryId := none, date := ⟨2026, 3, 6⟩
    amount := -1200000, title := "Rent", source := none, rawData := none
    isDuplicate := false, duplicateOf := none, isShared := false
    collectToMe := 0, collectFromMe := 0, yearMonth := 202603
    notes := none, sortIndex := 0 }

/-- A duplicate-flagged staged row for March 2026. -/
def stagedDupCoffee : StagedTx :=
  { id := 5, userId := 0, categoryId := none, date := ⟨2026, 3, 5⟩
    amount := -4500, title := "Coffee", source := none, rawData := none
    isDuplicate := true, duplicateOf := some 1, isShared := false
    collectToMe := 0, collectFromMe := 0, yearMonth := 202603
    notes := none, sortIndex := 0 }

/-- Database whose staging area holds only the duplicate row. -/
def dbOnlyDuplicate : DB :=
  { expenses := [ledCoffee], staged := [stagedDupCoffee], nextId := 20 }

/-- A non-duplicate staged row with amount 100 and zero settlement. -/
def stagedGroceries : StagedTx :=
  { id := 7, userId := 0, categoryId := none, date := ⟨2026, 3, 5⟩
    amount := 100, title := "Groceries", source := none, rawData := none
    isDuplicate := false, duplicateOf := none, isShared := false
    collectToMe := 0, collectFromMe := 0, yearMonth := 202603
    notes := none, sortIndex := 0 }

/-- Database whose staging area holds only `stagedGroceries`. -/
def dbOneStaged : DB := { expenses := [], staged := [stagedGroceries], nextId := 8 }

/-- An update request setting only `collectToMe := 200` (which exceeds
`stagedGroceries.amount = 100`). -/
def updExcess : StagedUpdate :=
  { categoryId := none, title := none, amount := none, date := none
    notes := none, isShared := none, collectToMe := some 200, collectFromMe := none }

/-- Database staging both the duplicate Coffee row and the non-duplicate
Groceries row for March 2026. -/
def dbMixed : DB :=
  { expenses := [ledCoffee], staged := [stagedDupCoffee, stagedGroceries], nextId := 30 }

/-- A shared ledger entry with an odd positive amount. -/
def sharedOddEntry : LedgerEntry :=
  { id := 3, userId := 0, categoryId := none, date := ⟨2026, 3, 5⟩
    amount := 3, title := "Snack", description := none, notes := none
    source := none, sourceFile := none, isShared := true
    collectToMe := 0, collectFromMe := 0, settled := false, yearMonth := 202603 }

/-- An expense update that only sets `isShared := true`. -/
def updShareOnly : ExpenseUpdate :=
  { categoryId := none, date := none, amount := none, title := none
    description := none, notes := none, isShared := some true
    collectToMe := none, collectFromMe := none, settled := none, yearMonth := none }

/-! ### Helper lemmas -/

theorem filter_compl_nil {α : Type} (p : α → Bool) (l : List α) :
    (l.filter (fun a => !p a)).filter p = [] := by
  induction l with
  | nil => rfl
  | cons x xs ih =>
    by_cases h : p x = true
    · simp [List.filter_cons, h, ih]
    · simp only [Bool.not_eq_true] at h
      simp [List.filter_cons, h, ih]

theorem stageRows_length (ex : List LedgerEntry) (u : Nat) (t : Option Int) :
    ∀ (id : Nat) (txs : List RawTx), (stageRows ex u t id txs).length = txs.length := by
  intro id txs
  induction txs generalizing id with
  | nil => rfl
  | cons tx rest ih => simp [stageRows, ih]

theorem stageRows_mem {ex : List LedgerEntry} {u : Nat} {t : Option Int}
    {s : StagedTx} {id : Nat} {txs : List RawTx}
    (h : s ∈ stageRows ex u t id txs) :
    ∃ j tx, tx ∈ txs ∧ s = stageRow ex u t j tx := by
  induction txs generalizing id with
  | nil => simp [stageRows] at h
  | cons tx rest ih =>
    simp only [stageRows, List.mem_cons] at h
    rcases h with h | h
    · exact ⟨id, tx, List.mem_cons_self tx rest, h⟩
    · obtain ⟨j, tx', htx', hs⟩ := ih h
      exact ⟨j, tx', List.mem_cons_of_mem _ htx', hs⟩

theorem stageRow_userId (ex : List LedgerEntry) (u : Nat) (t : Option Int)
    (id : Nat) (tx : RawTx) : (stageRow ex u t id tx).userId = u := rfl

theorem stageRow_yearMonth_target (ex : List LedgerEntry) (u : Nat) (t : Int)
    (id : Nat) (tx : RawTx) : (stageRow ex u (some t) id tx).yearMonth = t := rfl

theorem stageImport_rows_eq (db : DB) (userId : Nat) (txs : List RawTx)
    (t : Int) (now : CalDate) (ht : (t == 0) = false) :
    (stageImport db userId txs (some t) now).rows =
      stageRows
        (db.expenses.filter (fun e => e.userId == userId && e.yearMonth == t))
        userId (some t) db.nextId
        (txs.filter (fun tx => dateToYearMonth tx.date == t)) := by
  simp [stageImport, ht]

theorem stageImport_db_staged_eq (db : DB) (userId : Nat) (txs : List RawTx)
    (t : Int) (now : CalDate) (ht : (t == 0) = false) :
    (stageImport db userId txs (some t) now).db.staged =
      db.staged.filter (fun s => !(s.userId == userId && s.yearMonth == t)) ++
        (stageImport db userId txs (some t) now).rows := by
  simp [stageImport, ht]

theorem stageImport_db_expenses_eq (db : DB) (userId : Nat) (txs : List RawTx)
    (target : Option Int) (now : CalDate) :
    (stageImport db userId txs target now).db.expenses = db.expenses := by
  cases target with
  | none => rfl
  | some t =>
    by_cases h : (t == 0) = true
    · simp [stageImport, h]
    · simp only [Bool.not_eq_true] at h
      simp [stageImport, h]

theorem insertEntries_length (userId : Nat) :
    ∀ (id : Nat) (l : List StagedTx), (insertEntries userId id l).length = l.length := by
  intro id l
  induction l generalizing id with
  | nil => rfl
  | cons s rest ih => simp [insertEntries, ih]

theorem insertEntries_copies (userId : Nat) :
    ∀ (id : Nat) (l : List StagedTx),
      List.Forall₂
        (fun (e : LedgerEntry) (s : StagedTx) =>
          e.userId = userId ∧ e.date = s.date ∧ e.amount = s.amount ∧
          e.title = s.title ∧ e.categoryId = s.categoryId ∧ e.notes = s.notes ∧
          e.source = s.source ∧ e.isShared = s.isShared ∧
          e.collectToMe = s.collectToMe ∧ e.collectFromMe = s.collectFromMe ∧
          e.yearMonth = s.yearMonth ∧ e.sourceFile = some "import")
        (insertEntries userId id l) l := by
  intro id l
  induction l generalizing id with
  | nil => exact List.Forall₂.nil
  | cons s rest ih =>
    refine List.Forall₂.cons ?_ (ih (id + 1))
    simp [entryOfStaged]

theorem stageRow_dup_fields (ex : List LedgerEntry) (u : Nat) (t : Int)
    (id : Nat) (tx : RawTx) :
    (stageRow ex u (some t) id tx).isDuplicate
        = (ex.find? (dupPred t tx.amount (jsTrim tx.title) (jsOrNull tx.source))).isSome
    ∧ (stageRow ex u (some t) id tx).duplicateOf
        = (ex.find? (dupPred t tx.amount (jsTrim tx.title) (jsOrNull tx.source))).map
            (fun e => e.id)
    ∧ (stageRow ex u (some t) id tx).amount = tx.amount
    ∧ (stageRow ex u (some t) id tx).title = tx.title
    ∧ (stageRow ex u (some t) id tx).source = jsOrNull tx.source :=
  ⟨rfl, rfl, rfl, rfl, rfl⟩

theorem foldl_add_eq (g : LedgerEntry → Int) :
    ∀ (l : List LedgerEntry) (a : Int),
      l.foldl (fun sum e => sum + g e) a = a + l.foldl (fun sum e => sum + g e) 0 := by
  intro l
  induction l with
  | nil => simp
  | cons x xs ih =>
    intro a
    simp only [List.foldl_cons]
    rw [ih (a + g x), ih (0 + g x)]
    ring

/-! ### Claims -/

/-- C1: Every candidate staged by `stageImport` (with a target month `t`)
is flagged `isDuplicate = true` iff some committed ledger entry of the
same user satisfies all four predicates — month equal to the target
month, exact amount equality in minor units, trimmed-title equality, and
source-label equality (both-missing counts as equal, via `jsOrNull`) —
and when a match exists, `duplicateOf` records the id of the *first*
entry of the fetched ledger slice satisfying the four predicates
(`List.find?` is first-match, not best-match). -/
theorem stageImport_duplicate_flag (db : DB) (userId : Nat) (txs : List RawTx)
    (t : Int) (now : CalDate) (ht : t ≠ 0) (s : StagedTx)
    (hs : s ∈ (stageImport db userId txs (some t) now).rows) :
    (s.isDuplicate = true ↔
      ∃ e ∈ db.expenses, e.userId = userId ∧
        dupPred t s.amount (jsTrim s.title) s.source e = true)
    ∧ s.duplicateOf =
      ((db.expenses.filter (fun e => e.userId == userId && e.yearMonth == t)).find?
          (dupPred t s.amount (jsTrim s.title) s.source)).map (fun e => e.id) := by
  have hbeq : (t == 0) = false := by simpa using ht
  rw [stageImport_rows_eq db userId txs t now hbeq] at hs
  obtain ⟨j, tx, _, rfl⟩ := stageRows_mem hs
  obtain ⟨hdup, hof, ham, hti, hso⟩ :=
    stageRow_dup_fields
      (db.expenses.filter (fun e => e.userId == userId && e.yearMonth == t))
      userId t j tx
  rw [hdup, hof, ham, hti, hso]
  constructor
  · rw [List.find?_isSome]
    constructor
    · rintro ⟨e, he, hp⟩
      rw [List.mem_filter] at he
      obtain ⟨he1, he2⟩ := he
      simp only [Bool.and_eq_true, beq_iff_eq] at he2
      exact ⟨e, he1, he2.1, hp⟩
    · rintro ⟨e, he, hu, hp⟩
      have hp' := hp
      simp only [dupPred, Bool.and_eq_true, beq_iff_eq] at hp'
      refine ⟨e, List.mem_filter.mpr ⟨he, ?_⟩, hp⟩
      simp [hu, hp'.1.1.1]
  · rfl

/-- Witness for `stageImport_duplicate_flag`: staging the Coffee
transaction against a ledger already holding the identical March-2026
Coffee entry flags it as a duplicate of entry 1. -/
theorem stageImport_duplicate_flag_witness :
    (202603 : Int) ≠ 0
    ∧ rowCoffeeStaged ∈ (stageImport dbWithCoffee 0 [txCoffee] (some 202603) dNow).rows
    ∧ ((rowCoffeeStaged.isDuplicate = true ↔
        ∃ e ∈ dbWithCoffee.expenses, e.userId = 0 ∧
          dupPred 202603 rowCoffeeStaged.amount (jsTrim rowCoffeeStaged.title)
            rowCoffeeStaged.source e = true)
      ∧ rowCoffeeStaged.duplicateOf =
        ((dbWithCoffee.expenses.filter
            (fun e => e.userId == 0 && e.yearMonth == 202603)).find?
          (dupPred 202603 rowCoffeeStaged.amount (jsTrim rowCoffeeStaged.title)
            rowCoffeeStaged.source)).map (fun e => e.id)) :=
  ⟨by decide, by decide,
    stageImport_duplicate_flag dbWithCoffee 0 [txCoffee] 202603 dNow (by decide)
      rowCoffeeStaged (by decide)⟩

/-- C2: When at least one non-duplicate staged row exists for
(user, month), `commit` inserts exactly one ledger entry per such row —
copying date, amount, title, category, notes, source, shared flag,
settlement fields and the target month, with provenance
`sourceFile = "import"` — leaves the previous ledger intact, deletes
every staged row for (user, month) (committed and duplicate alike), and
returns the number of non-duplicate staged rows. -/
theorem commit_inserts_and_clears (db : DB) (userId : Nat) (ym : Int)
    (h : db.staged.filter
        (fun s => s.userId == userId && s.yearMonth == ym && s.isDuplicate == false) ≠ []) :
    (commit db userId ym).2 =
      (db.staged.filter
        (fun s => s.userId == userId && s.yearMonth == ym && s.isDuplicate == false)).length
    ∧ (commit db userId ym).1.expenses.take db.expenses.length = db.expenses
    ∧ List.Forall₂
        (fun (e : LedgerEntry) (s : StagedTx) =>
          e.userId = userId ∧ e.date = s.date ∧ e.amount = s.amount ∧
          e.title = s.title ∧ e.categoryId = s.categoryId ∧ e.notes = s.notes ∧
          e.source = s.source ∧ e.isShared = s.isShared ∧
          e.collectToMe = s.collectToMe ∧ e.collectFromMe = s.collectFromMe ∧
          e.yearMonth = s.yearMonth ∧ e.sourceFile = some "import")
        ((commit db userId ym).1.expenses.drop db.expenses.length)
        (db.staged.filter
          (fun s => s.userId == userId && s.yearMonth == ym && s.isDuplicate == false))
    ∧ (∀ s ∈ (commit db userId ym).1.staged, ¬(s.userId = userId ∧ s.yearMonth = ym))
    ∧ (∀ s ∈ db.staged, ¬(s.userId = userId ∧ s.yearMonth = ym) →
        s ∈ (commit db userId ym).1.staged) := by
  have hne : (db.staged.filter
      (fun s => s.userId == userId && s.yearMonth == ym && s.isDuplicate == false)).isEmpty
      = false := List.isEmpty_eq_false.mpr h
  have hcommit : commit db userId ym =
      ({ expenses := db.expenses ++ insertEntries userId db.nextId
            (db.staged.filter
              (fun s => s.userId == userId && s.yearMonth == ym && s.isDuplicate == false))
         staged := db.staged.filter
            (fun s => !(s.userId == userId && s.yearMonth == ym))
         nextId := db.nextId +
            (db.staged.filter
              (fun s => s.userId == userId && s.yearMonth == ym && s.isDuplicate == false)).length },
        (db.staged.filter
          (fun s => s.userId == userId && s.yearMonth == ym && s.isDuplicate == false)).length) := by
    simp only [commit, hne, Bool.false_eq_true, if_false]
  rw [hcommit]
  refine ⟨rfl, List.take_left _ _, ?_, ?_, ?_⟩
  · rw [List.drop_left]
    exact insertEntries_copies userId db.nextId _
  · intro s hsmem
    rw [List.mem_filter] at hsmem
    have := hsmem.2
    simp only [Bool.not_eq_true', Bool.and_eq_false_iff, beq_eq_false_iff_ne] at this
    rintro ⟨h1, h2⟩
    rcases this with h' | h' <;> exact h' (by simp [h1, h2])
  · intro s hsmem hnot
    rw [List.mem_filter]
    refine ⟨hsmem, ?_⟩
    simp only [Bool.not_eq_true', Bool.and_eq_false_iff, beq_eq_false_iff_ne]
    by_cases hu : s.userId = userId
    · right
      intro hy
      exact hnot ⟨hu, by simpa using hy⟩
    · left
      intro hu'
      exact hu (by simpa using hu')

/-- Witness for `commit_inserts_and_clears`: committing the database
whose staging area holds the single non-duplicate Groceries row inserts
one imported ledger entry, clears staging and reports 1. -/
theorem commit_inserts_and_clears_witness :
    (dbOneStaged.staged.filter
        (fun s => s.userId == 0 && s.yearMonth == 202603 && s.isDuplicate == false) ≠ [])
    ∧ ((commit dbOneStaged 0 202603).2 =
        (dbOneStaged.staged.filter
          (fun s => s.userId == 0 && s.yearMonth == 202603 && s.isDuplicate == false)).length
      ∧ (commit dbOneStaged 0 202603).1.expenses.take dbOneStaged.expenses.length
          = dbOneStaged.expenses
      ∧ List.Forall₂
          (fun (e : LedgerEntry) (s : StagedTx) =>
            e.userId = 0 ∧ e.date = s.date ∧ e.amount = s.amount ∧
            e.title = s.title ∧ e.categoryId = s.categoryId ∧ e.notes = s.notes ∧
            e.source = s.source ∧ e.isShared = s.isShared ∧
            e.collectToMe = s.collectToMe ∧ e.collectFromMe = s.collectFromMe ∧
            e.yearMonth = s.yearMonth ∧ e.sourceFile = some "import")
          ((commit dbOneStaged 0 202603).1.expenses.drop dbOneStaged.expenses.length)
          (dbOneStaged.staged.filter
            (fun s => s.userId == 0 && s.yearMonth == 202603 && s.isDuplicate == false))
      ∧ (∀ s ∈ (commit dbOneStaged 0 202603).1.staged,
          ¬(s.userId = 0 ∧ s.yearMonth = 202603))
      ∧ (∀ s ∈ dbOneStaged.staged, ¬(s.userId = 0 ∧ s.yearMonth = 202603) →
          s ∈ (commit dbOneStaged 0 202603).1.staged)) :=
  ⟨by decide, commit_inserts_and_clears dbOneStaged 0 202603 (by decide)⟩

theorem stageImport_rows_all_month (db : DB) (userId : Nat) (txs : List RawTx)
    (t : Int) (now : CalDate) (hbeq : (t == 0) = false) :
    ∀ s ∈ (stageImport db userId txs (some t) now).rows,
      (s.userId == userId && s.yearMonth == t) = true := by
  intro s hs
  rw [stageImport_rows_eq db userId txs t now hbeq] at hs
  obtain ⟨j, tx, _, rfl⟩ := stageRows_mem hs
  rw [Bool.and_eq_true]
  exact ⟨by rw [stageRow_userId]; simp, by rw [stageRow_yearMonth_target]; simp⟩

theorem listStaged_after_stageImport (db : DB) (userId : Nat) (txs : List RawTx)
    (t : Int) (now : CalDate) (ht : t ≠ 0) :
    listStaged (stageImport db userId txs (some t) now).db userId t
      = (stageImport db userId txs (some t) now).rows := by
  have hbeq : (t == 0) = false := by simpa using ht
  simp only [listStaged, hbeq, Bool.false_eq_true, if_false]
  rw [stageImport_db_staged_eq db userId txs t now hbeq, List.filter_append,
    filter_compl_nil,
    List.filter_eq_self.mpr (stageImport_rows_all_month db userId txs t now hbeq),
    List.nil_append]

/-- C3: Running `stageImport` twice for the same (user, target month)
with identical extractor output leaves the same number of staged rows for
that (user, month) after each run — the purge-then-reinsert step replaces
rather than accumulates. -/
theorem stageImport_restage_same_size (db : DB) (userId : Nat)
    (txs : List RawTx) (t : Int) (now1 now2 : CalDate) (ht : t ≠ 0) :
    (listStaged (stageImport db userId txs (some t) now1).db userId t).length
      = (listStaged
          (stageImport (stageImport db userId txs (some t) now1).db userId txs
            (some t) now2).db userId t).length := by
  have hbeq : (t == 0) = false := by simpa using ht
  rw [listStaged_after_stageImport db userId txs t now1 ht,
    listStaged_after_stageImport _ userId txs t now2 ht,
    stageImport_rows_eq db userId txs t now1 hbeq,
    stageImport_rows_eq _ userId txs t now2 hbeq,
    stageRows_length, stageRows_length]

/-- Witness for `stageImport_restage_same_size`: re-uploading the
Coffee/Rent statement for March 2026 into a ledger already holding the
Coffee entry stages the same number of rows both times. -/
theorem stageImport_restage_same_size_witness :
    (202603 : Int) ≠ 0
    ∧ (listStaged (stageImport dbWithCoffee 0 [txCoffee, txRent] (some 202603) dNow).db
          0 202603).length
      = (listStaged
          (stageImport (stageImport dbWithCoffee 0 [txCoffee, txRent] (some 202603) dNow).db
            0 [txCoffee, txRent] (some 202603) dNow).db 0 202603).length :=
  ⟨by decide,
    stageImport_restage_same_size dbWithCoffee 0 [txCoffee, txRent] 202603 dNow dNow
      (by decide)⟩

theorem applyStagedUpdate_id (u : StagedUpdate) (s : StagedTx) :
    (applyStagedUpdate u s).id = s.id := rfl

theorem applyStagedUpdate_userId (u : StagedUpdate) (s : StagedTx) :
    (applyStagedUpdate u s).userId = s.userId := rfl

theorem find?_map_update (id userId : Nat) (u : StagedUpdate) (s : StagedTx) :
    ∀ (l : List StagedTx),
      l.find? (fun r => r.id == id) = some s → s.userId = userId →
      ((l.map (fun r => if r.id == id && r.userId == userId
            then applyStagedUpdate u r else r)).find?
          (fun r => r.id == id && r.userId == userId) = some (applyStagedUpdate u s)
      ∧ (l.map (fun r => if r.id == id && r.userId == userId
            then applyStagedUpdate u r else r)).find?
          (fun r => r.id == id) = some (applyStagedUpdate u s)) := by
  intro l
  induction l with
  | nil => intro hfind; simp at hfind
  | cons x xs ih =>
    intro hfind hu
    by_cases hx : (x.id == id) = true
    · rw [@List.find?_cons_of_pos _ (fun r => r.id == id) x xs hx] at hfind
      have hsx : x = s := by injection hfind
      subst hsx
      have hxu : (x.userId == userId) = true := by simp [hu]
      have hcond : (x.id == id && x.userId == userId) = true := by
        rw [hx, hxu]; rfl
      refine ⟨?_, ?_⟩
      · rw [List.map_cons, if_pos hcond]
        exact @List.find?_cons_of_pos _ (fun r => r.id == id && r.userId == userId)
          (applyStagedUpdate u x) _ (by
            show ((applyStagedUpdate u x).id == id
              && (applyStagedUpdate u x).userId == userId) = true
            rw [applyStagedUpdate_id, applyStagedUpdate_userId, hx, hxu]; rfl)
      · rw [List.map_cons, if_pos hcond]
        exact @List.find?_cons_of_pos _ (fun r => r.id == id)
          (applyStagedUpdate u x) _ (by
            show ((applyStagedUpdate u x).id == id) = true
            rw [applyStagedUpdate_id]; exact hx)
    · rw [Bool.not_eq_true] at hx
      rw [@List.find?_cons_of_neg _ (fun r => r.id == id) x xs
        (by show ¬(x.id == id) = true; rw [hx]; simp)] at hfind
      obtain ⟨ih1, ih2⟩ := ih hfind hu
      have hcond : (x.id == id && x.userId == userId) = false := by
        rw [hx]; rfl
      refine ⟨?_, ?_⟩
      · rw [List.map_cons, if_neg (by rw [hcond]; simp),
          @List.find?_cons_of_neg _ (fun r => r.id == id && r.userId == userId)
            x _ (by
              show ¬(x.id == id && x.userId == userId) = true
              rw [hcond]; simp)]
        exact ih1
      · rw [List.map_cons, if_neg (by rw [hcond]; simp),
          @List.find?_cons_of_neg _ (fun r => r.id == id) x _
            (by show ¬(x.id == id) = true; rw [hx]; simp)]
        exact ih2

/-- C4 counterexample: requesting `collectToMe := 200` on the staged
Groceries row (amount 100, `collectFromMe` 0) is *not* rejected — the
route answers with the updated row and the staging store now holds a row
that violates the settlement bound; the row is not left unchanged. -/
theorem updateStaged_excess_settlement_accepted_cex :
    stagedGroceries.amount < 200 + stagedGroceries.collectFromMe
    ∧ (updateStaged dbOneStaged 0 7 updExcess).2
        = some { stagedGroceries with collectToMe := 200 }
    ∧ (updateStaged dbOneStaged 0 7 updExcess).1.staged
        = [{ stagedGroceries with collectToMe := 200 }]
    ∧ ({ stagedGroceries with collectToMe := 200 } : StagedTx) ≠ stagedGroceries := by
  decide

/-- C4 amended: `updateStaged` performs only type validation; a requested
`collectToMe` whose sum with the row's resulting `collectFromMe` exceeds
the amount is accepted — the update is applied and persisted exactly as
requested, with no settlement-bound check at the edit surface. -/
theorem updateStaged_no_settlement_validation (db : DB) (userId id : Nat)
    (u : StagedUpdate) (s : StagedTx) (c : Int)
    (hfind : db.staged.find? (fun r => r.id == id) = some s)
    (hu : s.userId = userId)
    (hc : u.collectToMe = some c)
    (hviol : s.amount < c + u.collectFromMe.getD s.collectFromMe) :
    (updateStaged db userId id u).2 = some (applyStagedUpdate u s)
    ∧ (applyStagedUpdate u s).collectToMe = c
    ∧ applyStagedUpdate u s ∈ (updateStaged db userId id u).1.staged := by
  obtain ⟨h1, h2⟩ := find?_map_update id userId u s db.staged hfind hu
  have hsid : s.id = id := by
    have := List.find?_some hfind
    simpa using this
  have hid2 : (applyStagedUpdate u s).id = id := by rw [applyStagedUpdate_id, hsid]
  have hres : (updateStaged db userId id u)
      = ({ db with staged := stagedAfterUpdate db userId id u },
          some (applyStagedUpdate u s)) := by
    simp only [updateStaged, stagedAfterUpdate, h1, hid2, h2]
  refine ⟨by rw [hres], by simp [applyStagedUpdate, hc], ?_⟩
  rw [hres]
  exact List.mem_of_find?_eq_some h2

/-- Witness for `updateStaged_no_settlement_validation`: the concrete
excess-settlement update on the Groceries row goes through. -/
theorem updateStaged_no_settlement_validation_witness :
    dbOneStaged.staged.find? (fun r => r.id == 7) = some stagedGroceries
    ∧ stagedGroceries.userId = 0
    ∧ updExcess.collectToMe = some 200
    ∧ stagedGroceries.amount
        < 200 + updExcess.collectFromMe.getD stagedGroceries.collectFromMe
    ∧ ((updateStaged dbOneStaged 0 7 updExcess).2
        = some (applyStagedUpdate updExcess stagedGroceries)
      ∧ (applyStagedUpdate updExcess stagedGroceries).collectToMe = 200
      ∧ applyStagedUpdate updExcess stagedGroceries
          ∈ (updateStaged dbOneStaged 0 7 updExcess).1.staged) :=
  ⟨by decide, by decide, by decide, by decide,
    updateStaged_no_settlement_validation dbOneStaged 0 7 updExcess stagedGroceries 200
      (by decide) (by decide) (by decide) (by decide)⟩

/-- C5 counterexample: with the staging area holding only the
duplicate-flagged Coffee row, `commit` answers `{committed: 0}` (a
successful response) but does *not* clear staging — `listStaged` for that
(user, month) still returns the duplicate row, not the empty set. -/
theorem commit_zero_committed_keeps_staged_cex :
    (commit dbOnlyDuplicate 0 202603).2 = 0
    ∧ listStaged (commit dbOnlyDuplicate 0 202603).1 0 202603 = [stagedDupCoffee]
    ∧ listStaged (commit dbOnlyDuplicate 0 202603).1 0 202603 ≠ [] := by
  decide

/-- C5 amended: after a commit that found at least one non-duplicate
staged row for (user, month), `listStaged` for that (user, month) returns
the empty set — committed and duplicate rows alike are removed.  (A
commit finding zero non-duplicate rows returns early and leaves staging
untouched.) -/
theorem commit_nonempty_clears_staging (db : DB) (userId : Nat) (ym : Int)
    (hym : ym ≠ 0)
    (h : db.staged.filter
        (fun s => s.userId == userId && s.yearMonth == ym && s.isDuplicate == false) ≠ []) :
    listStaged (commit db userId ym).1 userId ym = [] := by
  have hne : (db.staged.filter
      (fun s => s.userId == userId && s.yearMonth == ym && s.isDuplicate == false)).isEmpty
      = false := List.isEmpty_eq_false.mpr h
  have hbeq : (ym == 0) = false := by simpa using hym
  simp only [commit, hne, Bool.false_eq_true, if_false]
  simp only [listStaged, hbeq, Bool.false_eq_true, if_false]
  exact filter_compl_nil _ _

/-- Witness for `commit_nonempty_clears_staging`: committing the
March-2026 staging area holding one duplicate and one non-duplicate row
leaves `listStaged` empty. -/
theorem commit_nonempty_clears_staging_witness :
    (202603 : Int) ≠ 0
    ∧ dbMixed.staged.filter
        (fun s => s.userId == 0 && s.yearMonth == 202603 && s.isDuplicate == false) ≠ []
    ∧ listStaged (commit dbMixed 0 202603).1 0 202603 = [] :=
  ⟨by decide, by decide,
    commit_nonempty_clears_staging dbMixed 0 202603 (by decide) (by decide)⟩

/-- C6: When no staged row for (user, month) has `isDuplicate = false`,
`commit` returns `{committed: 0}` and performs no writes — the database
(ledger and staging store) is returned exactly as it was. -/
theorem commit_zero_noop (db : DB) (userId : Nat) (ym : Int)
    (h : db.staged.filter
        (fun s => s.userId == userId && s.yearMonth == ym && s.isDuplicate == false) = []) :
    commit db userId ym = (db, 0) := by
  have hne : (db.staged.filter
      (fun s => s.userId == userId && s.yearMonth == ym && s.isDuplicate == false)).isEmpty
      = true := by rw [h]; rfl
  simp only [commit, hne, if_true]

/-- Witness for `commit_zero_noop`: committing a month whose staging area
holds only the duplicate Coffee row changes nothing and reports 0. -/
theorem commit_zero_noop_witness :
    dbOnlyDuplicate.staged.filter
        (fun s => s.userId == 0 && s.yearMonth == 202603 && s.isDuplicate == false) = []
    ∧ commit dbOnlyDuplicate 0 202603 = (dbOnlyDuplicate, 0) :=
  ⟨by decide, commit_zero_noop dbOnlyDuplicate 0 202603 (by decide)⟩

theorem stageRow_defaults (ex : List LedgerEntry) (u : Nat) (t : Option Int)
    (id : Nat) (tx : RawTx) :
    (stageRow ex u t id tx).sortIndex = 0
    ∧ (stageRow ex u t id tx).collectToMe = 0
    ∧ (stageRow ex u t id tx).collectFromMe = 0
    ∧ (stageRow ex u t id tx).categoryId = none
    ∧ (stageRow ex u t id tx).notes = none :=
  ⟨rfl, rfl, rfl, rfl, rfl⟩

theorem stageImport_rows_are_stageRows (db : DB) (userId : Nat)
    (txs : List RawTx) (target : Option Int) (now : CalDate) (s : StagedTx)
    (hs : s ∈ (stageImport db userId txs target now).rows) :
    ∃ ex t j tx, s = stageRow ex userId t j tx := by
  cases target with
  | none =>
    simp only [stageImport] at hs
    obtain ⟨j, tx, _, rfl⟩ := stageRows_mem hs
    exact ⟨_, _, _, _, rfl⟩
  | some t =>
    cases htb : (t == 0) with
    | true =>
      simp only [stageImport, htb, if_true] at hs
      obtain ⟨j, tx, _, rfl⟩ := stageRows_mem hs
      exact ⟨_, _, _, _, rfl⟩
    | false =>
      simp only [stageImport, htb, Bool.false_eq_true, if_false] at hs
      obtain ⟨j, tx, _, rfl⟩ := stageRows_mem hs
      exact ⟨_, _, _, _, rfl⟩

/-- C7 (documents the code bug): every row inserted by `stageImport` has
settlement fields zeroed and category (and notes) unset, as claimed — but
its `sortIndex` is always the column default `0`, *not* its position in
the filtered list: the insert at import.ts lines 120–136 never supplies
`sortIndex`, contradicting the schema comment ("Preserves original file
order") and migration 001. -/
theorem stageImport_sortIndex_always_zero (db : DB) (userId : Nat)
    (txs : List RawTx) (target : Option Int) (now : CalDate) (s : StagedTx)
    (hs : s ∈ (stageImport db userId txs target now).rows) :
    s.sortIndex = 0 ∧ s.collectToMe = 0 ∧ s.collectFromMe = 0
    ∧ s.categoryId = none ∧ s.notes = none := by
  obtain ⟨ex, t, j, tx, rfl⟩ := stageImport_rows_are_stageRows db userId txs target now s hs
  exact stageRow_defaults ex userId t j tx

/-- Witness for `stageImport_sortIndex_always_zero`: the Rent row staged
at position 1 of the spec's two-transaction March-2026 upload still has
`sortIndex = 0`. -/
theorem stageImport_sortIndex_always_zero_witness :
    rowRentStaged ∈ (stageImport dbEmpty 0 [txCoffee, txRent] (some 202603) dNow).rows
    ∧ (rowRentStaged.sortIndex = 0 ∧ rowRentStaged.collectToMe = 0
      ∧ rowRentStaged.collectFromMe = 0 ∧ rowRentStaged.categoryId = none
      ∧ rowRentStaged.notes = none) :=
  ⟨by decide,
    stageImport_sortIndex_always_zero dbEmpty 0 [txCoffee, txRent] (some 202603) dNow
      rowRentStaged (by decide)⟩

theorem statsTotal_cons (e : LedgerEntry) (es : List LedgerEntry) :
    statsTotal (e :: es)
      = (if e.isShared then Int.fdiv e.amount 2 else e.amount) + statsTotal es := by
  simp only [statsTotal, List.foldl_cons]
  rw [foldl_add_eq (fun e => if e.isShared then Int.fdiv e.amount 2 else e.amount)]
  ring

theorem dashboardExpensesTotal_cons_pos (e : LedgerEntry) (es : List LedgerEntry)
    (he : 0 < e.amount) :
    dashboardExpensesTotal (e :: es)
      = (if e.isShared then Int.fdiv e.amount 2 else e.amount)
          + dashboardExpensesTotal es := by
  simp only [dashboardExpensesTotal, List.filter_cons, decide_eq_true_eq, he, if_true,
    List.foldl_cons]
  rw [foldl_add_eq (fun e => if e.isShared then Int.fdiv e.amount 2 else e.amount)]
  ring

theorem dashboardSharedTotal_cons_pos (e : LedgerEntry) (es : List LedgerEntry)
    (he : 0 < e.amount) :
    dashboardSharedTotal (e :: es)
      = (if e.isShared then e.amount else 0) + dashboardSharedTotal es := by
  simp only [dashboardSharedTotal, List.filter_cons, decide_eq_true_eq, he, if_true,
    List.foldl_cons]
  rw [foldl_add_eq (fun e => if e.isShared then e.amount else 0)]
  ring

/-- C8: Setting `isShared` through the expense edit surface never alters
the stored amount (the `set` applies only the supplied fields, and an
`isShared`-only update supplies no amount); the stats aggregation and the
dashboard monthly-expenses aggregation both count exactly
`Math.floor(amount / 2)` — the integer `Int.fdiv amount 2`, which is the
mathematical floor of `amount / 2` — as the user's personal share of a
shared row, while the dashboard's shared-total figure counts the full
amount. -/
theorem shared_expense_semantics (es : List LedgerEntry) (e ex : LedgerEntry)
    (u : ExpenseUpdate) (hsh : e.isShared = true) (hupd : u.amount = none) :
    (applyExpenseUpdate u ex).amount = ex.amount
    ∧ statsTotal (e :: es) = Int.fdiv e.amount 2 + statsTotal es
    ∧ (0 < e.amount →
        dashboardExpensesTotal (e :: es)
            = Int.fdiv e.amount 2 + dashboardExpensesTotal es
        ∧ dashboardSharedTotal (e :: es) = e.amount + dashboardSharedTotal es)
    ∧ Int.fdiv e.amount 2 = ⌊(e.amount : ℚ) / 2⌋ := by
  refine ⟨by simp [applyExpenseUpdate, hupd], ?_, ?_, ?_⟩
  · rw [statsTotal_cons, hsh]; simp
  · intro he
    constructor
    · rw [dashboardExpensesTotal_cons_pos e es he, hsh]; simp
    · rw [dashboardSharedTotal_cons_pos e es he, hsh]; simp
  · rw [Int.fdiv_eq_ediv _ (by norm_num)]
    have hfl : ⌊((e.amount : ℚ) / ((2 : ℕ) : ℚ))⌋ = e.amount / ((2 : ℕ) : ℤ) :=
      Rat.floor_intCast_div_natCast e.amount 2
    simpa using hfl.symm

/-- Witness for `shared_expense_semantics`: a shared row with odd amount
3 contributes exactly 1 to the personal-share totals and 3 to the
shared total; an `isShared`-only update leaves an amount untouched. -/
theorem shared_expense_semantics_witness :
    sharedOddEntry.isShared = true
    ∧ updShareOnly.amount = none
    ∧ ((applyExpenseUpdate updShareOnly ledCoffee).amount = ledCoffee.amount
      ∧ statsTotal [sharedOddEntry] = Int.fdiv sharedOddEntry.amount 2 + statsTotal []
      ∧ (0 < sharedOddEntry.amount →
          dashboardExpensesTotal [sharedOddEntry]
              = Int.fdiv sharedOddEntry.amount 2 + dashboardExpensesTotal []
          ∧ dashboardSharedTotal [sharedOddEntry]
              = sharedOddEntry.amount + dashboardSharedTotal [])
      ∧ Int.fdiv sharedOddEntry.amount 2 = ⌊(sharedOddEntry.amount : ℚ) / 2⌋) :=
  ⟨by decide, by decide,
    shared_expense_semantics [] sharedOddEntry ledCoffee updShareOnly
      (by decide) (by decide)⟩

theorem stageRows_yearMonth_none (ex : List LedgerEntry) (u : Nat) :
    ∀ (id : Nat) (txs : List RawTx),
      List.Forall₂ (fun (s : StagedTx) (tx : RawTx) =>
          s.yearMonth = dateToYearMonth tx.date)
        (stageRows ex u none id txs) txs := by
  intro id txs
  induction txs generalizing id with
  | nil => exact List.Forall₂.nil
  | cons tx rest ih => exact List.Forall₂.cons rfl (ih (id + 1))

/-- C9: When no target month is supplied (absent or zero), `stageImport`
performs no purge — the previous staging content is kept and the new rows
are appended — each inserted row's month is derived from its own
transaction date, and repeating the identical upload accumulates rows
(the staging store grows by the batch size twice) instead of replacing
them. -/
theorem stageImport_without_target_accumulates (db : DB) (userId : Nat)
    (txs : List RawTx) (now1 now2 : CalDate) :
    stageImport db userId txs (some 0) now1 = stageImport db userId txs none now1
    ∧ (stageImport db userId txs none now1).db.staged
        = db.staged ++ (stageImport db userId txs none now1).rows
    ∧ List.Forall₂ (fun (s : StagedTx) (tx : RawTx) =>
          s.yearMonth = dateToYearMonth tx.date)
        (stageImport db userId txs none now1).rows txs
    ∧ (stageImport (stageImport db userId txs none now1).db userId txs
          none now2).db.staged.length
        = db.staged.length + 2 * txs.length := by
  refine ⟨rfl, rfl, stageRows_yearMonth_none _ userId db.nextId txs, ?_⟩
  show (((db.staged ++ stageRows _ userId none db.nextId txs) ++
      stageRows _ userId none _ txs)).length = db.staged.length + 2 * txs.length
  rw [List.length_append, List.length_append, stageRows_length, stageRows_length]
  ring

/-- C10: Whatever fields an `updateStaged` call supplies, the staging
table's `id`, `isDuplicate`, `duplicateOf`, `yearMonth`, `sortIndex`,
`source` and `rawData` columns are unchanged row-for-row — the duplicate
verdict and month assignment fixed at staging time cannot be altered
through the edit surface. -/
theorem updateStaged_preserves_staging_fields (db : DB) (userId id : Nat)
    (u : StagedUpdate) :
    ((updateStaged db userId id u).1.staged).map
        (fun r => (r.id, r.isDuplicate, r.duplicateOf, r.yearMonth,
          r.sortIndex, r.source, r.rawData))
      = db.staged.map
        (fun r => (r.id, r.isDuplicate, r.duplicateOf, r.yearMonth,
          r.sortIndex, r.source, r.rawData)) := by
  have hst : (updateStaged db userId id u).1.staged = stagedAfterUpdate db userId id u := by
    simp only [updateStaged]
    cases (stagedAfterUpdate db userId id u).find?
      (fun r => r.id == id && r.userId == userId) with
    | none => rfl
    | some upd => rfl
  rw [hst, stagedAfterUpdate, List.map_map]
  congr 1
  funext r
  by_cases h : (r.id == id && r.userId == userId) = true
  · simp [Function.comp, h, applyStagedUpdate]
  · simp [Function.comp, h]

end Budget
